import Mathlib

/-
Shallow embedding of the react-machine state machine engine
(src/service.ts, src/constants.ts, src/types.ts).

Modelling conventions:
- JS objects used as contexts / event payloads are modelled as association
  lists (`JsObj`); object spread `\x7b...a, ...b\x7d` is modelled as list append,
  observed through `jsLookup`, in which later entries shadow earlier ones
  (matching the override behaviour of spread).
- Exceptions thrown by user hooks and by the library are modelled with
  `Except JsError`; the engine contains no catch anywhere, matching the
  source, so errors propagate structurally.
- An event object is `EventObj`: its `type` field plus the rest of its
  fields (`payload`). Destructuring `const \x7b type, ...data \x7d = event` is
  therefore modelled by projecting `payload`.
- The recursion of `applyTransition` over immediate transitions is not
  structurally terminating in the source (a cycle of immediates loops
  forever); the model adds an explicit fuel parameter, and running out of
  fuel is the distinguished error `JsError.outOfFuel`.
- `null`/`undefined` state names and event types are modelled as `none`;
  JS property access with a `null` key coerces to the string key "null"
  (`jsKey`).
-/

namespace ReactMachine

/-- Primitive JS values appearing in contexts and event payloads. -/
inductive Val where
  | num (n : Int)
  | str (s : String)
  | boolean (b : Bool)
  deriving DecidableEq, Repr

/-- A JS object as an association list; later entries shadow earlier ones. -/
abbrev JsObj := List (String × Val)

/-- Field lookup: the last binding of a key wins, matching object spread. -/
def jsLookup (o : JsObj) (k : String) : Option Val :=
  (o.reverse.find? (fun kv => kv.1 == k)).map (fun kv => kv.2)

/-- Object spread `\x7b...a, ...b\x7d`: fields of `b` override fields of `a`. -/
def jsMerge (a b : JsObj) : JsObj := a ++ b

/-- Errors: exceptions raised by library code (`thrown`), exceptions raised
by user-supplied hooks (`hookException`), JS TypeErrors from property access
on `undefined`, and the fuel-exhaustion artifact of the model. -/
inductive JsError where
  | thrown (msg : String)
  | hookException (msg : String)
  | typeError (msg : String)
  | outOfFuel
  deriving DecidableEq, Repr

/-- An event object, split into its `type` field and the remaining fields. -/
structure EventObj (P : Type) where
  type : Option String
  payload : P
  deriving DecidableEq, Repr

/-- Result of a reducer: a new context, or the `ACTION` sentinel produced by
lowered actions (service.ts line 130), which leaves the context unchanged. -/
inductive RedResult (C : Type) where
  | newContext (c : C)
  | actionSentinel
  deriving DecidableEq, Repr

/-- A reducer hook, `(context, event) => context`, which may throw. -/
abbrev ReduceFn (C P : Type) := C → EventObj P → Except JsError (RedResult C)

/-- A guard hook, `(context, event) => boolean`, which may throw. -/
abbrev GuardFn (C P : Type) := C → EventObj P → Except JsError Bool

/-- Compiled enter hooks: reducers plus effect and invoke functions
(effect bodies are opaque; `F` is their type). -/
structure EnterNode (C P F : Type) where
  reducers : List (ReduceFn C P)
  effects : List F
  invokes : List F

/-- Compiled exit hooks: only reducers (exitHooks = [assign, reduce, action]). -/
structure ExitNode (C P : Type) where
  reducers : List (ReduceFn C P)

/-- A compiled transition, immediate, or internal transition.
`event` is present for transition/internal, absent for immediate;
`target` is present for transition/immediate, absent for internal;
`internal` is true exactly for records created by `internal(...)`,
matching `isInternal` which tests for the presence of the key. -/
structure TransRec (C P : Type) where
  event : Option String
  target : Option String
  internal : Bool
  guards : List (GuardFn C P)
  reducers : List (ReduceFn C P)

/-- A compiled state node (MachineState in types.ts). -/
structure StateNode (C P F : Type) where
  name : String
  enter : List (EnterNode C P F)
  exit : List (ExitNode C P)
  transitions : List (String × List (TransRec C P))
  immediates : List (TransRec C P)

/-- A compiled machine: state nodes keyed by name, in declaration order. -/
structure Machine (C P F : Type) where
  states : List (String × StateNode C P F)

/-- The externally observable state snapshot (StateObject in types.ts). -/
structure StateObj (C : Type) where
  name : Option String
  context : C
  final : Bool
  deriving DecidableEq, Repr

/-- How an effect entry was produced at settle time: invokes are wrapped by
`promiseEffect`, effects are pushed as-is (service.ts lines 416-430). -/
inductive EffectRun (F : Type) where
  | promiseWrapped (f : F)
  | plain (f : F)
  deriving DecidableEq, Repr

/-- An effect entry `\x7b run, event \x7d` collected at settle time. -/
structure EffectHandle (P F : Type) where
  run : EffectRun F
  event : EventObj P
  deriving DecidableEq, Repr

/-- JS property-key coercion: a `null`/`undefined` key reads as "null". -/
def jsKey : Option String → String
  | some s => s
  | none => "null"

/-- `machine.states[name]` (service.ts line 346, 379-380). -/
def lookupState {C P F : Type} (M : Machine C P F) (name : Option String) :
    Option (StateNode C P F) :=
  M.states.lookup (jsKey name)

/-- JS truthiness test `!state.name`: null/undefined and "" are falsy. -/
def nameFalsy : Option String → Bool
  | none => true
  | some s => s == ""

/-- applyReducers (service.ts lines 446-461): run each reducer left to
right; a result equal to the ACTION sentinel leaves the context unchanged. -/
def applyReducers {C P : Type} (c : C) (e : EventObj P) :
    List (ReduceFn C P) → Except JsError C
  | [] => .ok c
  | r :: rs =>
    match r c e with
    | .error err => .error err
    | .ok (.newContext c') => applyReducers c' e rs
    | .ok .actionSentinel => applyReducers c e rs

/-- `guards.every((g) => g(context, event))`: left-to-right with
short-circuit on the first false guard. -/
def guardsEvery {C P : Type} (c : C) (e : EventObj P) :
    List (GuardFn C P) → Except JsError Bool
  | [] => .ok true
  | g :: gs =>
    match g c e with
    | .error err => .error err
    | .ok true => guardsEvery c e gs
    | .ok false => .ok false

/-- checkGuards (service.ts lines 435-444). -/
def checkGuards {C P : Type} (c : C) (e : EventObj P) (t : TransRec C P) :
    Except JsError Bool :=
  if t.guards.isEmpty then .ok true else guardsEvery c e t.guards

/-- The scan `for candidate of list: if checkGuards then use candidate`,
returning the first candidate whose guards all pass. -/
def firstPassing {C P : Type} (c : C) (e : EventObj P) :
    List (TransRec C P) → Except JsError (Option (TransRec C P))
  | [] => .ok none
  | t :: ts =>
    match checkGuards c e t with
    | .error err => .error err
    | .ok true => .ok (some t)
    | .ok false => firstPassing c e ts

/-- The exit loop: `for exit of currState.exit: applyReducers(...)`. -/
def runExits {C P : Type} (c : C) (e : EventObj P) :
    List (ExitNode C P) → Except JsError C
  | [] => .ok c
  | x :: xs =>
    match applyReducers c e x.reducers with
    | .error err => .error err
    | .ok c' => runExits c' e xs

/-- The enter loop: `for enter of nextState.enter: applyReducers(...)`. -/
def runEnters {C P F : Type} (c : C) (e : EventObj P) :
    List (EnterNode C P F) → Except JsError C
  | [] => .ok c
  | x :: xs =>
    match applyReducers c e x.reducers with
    | .error err => .error err
    | .ok c' => runEnters c' e xs

/-- Lines 385-389 of service.ts: exit reducers run only when the current
node exists and the transition is not internal. -/
def exitPhase {C P F : Type} (M : Machine C P F) (curr : StateObj C)
    (e : EventObj P) (t : TransRec C P) : Except JsError C :=
  match lookupState M curr.name with
  | some currState =>
    if t.internal then .ok curr.context else runExits curr.context e currState.exit
  | none => .ok curr.context

/-- Lines 416-430 of service.ts: at settle time, per enter block push all
promise-wrapped invokes and then all effects, paired with the event. -/
def collectEffects {C P F : Type} (node : StateNode C P F) (e : EventObj P) :
    List (EffectHandle P F) :=
  node.enter.foldr
    (fun en acc =>
      en.invokes.map (fun i => { run := .promiseWrapped i, event := e }) ++
        en.effects.map (fun f => { run := .plain f, event := e }) ++ acc)
    []

/-- applyTransition (service.ts lines 364-433): exit reducers, set the
working name, transition reducers, enter reducers, then re-scan the target
immediates; on the first guard-passing immediate, the recursive call
replaces the in-progress result entirely; on settle, compute `final` and,
for an external transition, build the effect list from the settled node. -/
def applyTransition {C P F : Type} (M : Machine C P F) :
    Nat → StateObj C → EventObj P → TransRec C P →
      Except JsError (StateObj C × Option (List (EffectHandle P F)))
  | 0, _, _, _ => .error .outOfFuel
  | Nat.succ fuel, curr, event, t =>
    match exitPhase M curr event t with
    | .error err => .error err
    | .ok ctx1 =>
      match applyReducers ctx1 event t.reducers with
      | .error err => .error err
      | .ok ctx2 =>
        match lookupState M (if t.internal then curr.name else t.target) with
        | none => .error (.typeError "cannot read property of undefined")
        | some nextState =>
          match (if t.internal then .ok ctx2
                 else runEnters ctx2 event nextState.enter : Except JsError C) with
          | .error err => .error err
          | .ok ctx3 =>
            match firstPassing ctx3 event nextState.immediates with
            | .error err => .error err
            | .ok (some cand) =>
              applyTransition M fuel
                { name := if t.internal then curr.name else t.target,
                  context := ctx3, final := curr.final } event cand
            | .ok none =>
              .ok
                ({ name := if t.internal then curr.name else t.target,
                   context := ctx3,
                   final :=
                     if nextState.transitions.isEmpty && nextState.immediates.isEmpty
                     then true else curr.final },
                 if t.internal then none else some (collectEffects nextState event))

/-- The immediate synthesized for the initial transition:
`createImmediate(initialStateName, \x7b\x7d)` (service.ts line 340). -/
def mkImmediate {C P : Type} (target : String) : TransRec C P :=
  { event := none, target := some target, internal := false,
    guards := [], reducers := [] }

/-- The transition list scanned during dispatch:
`(machine.states[state.name] || \x7b\x7d).transitions[eventObj.type] || []`. -/
def dispatchCandidates {C P F : Type} (M : Machine C P F) (state : StateObj C)
    (event : EventObj P) : List (TransRec C P) :=
  (((lookupState M state.name).map StateNode.transitions).getD []).lookup
      (jsKey event.type) |>.getD []

/-- Dispatch (service.ts lines 345-357): scan the candidates in order and
apply the first whose guards pass; otherwise return the state unchanged
with `null` effects. -/
def dispatch {C P F : Type} (M : Machine C P F) (fuel : Nat) (state : StateObj C)
    (event : EventObj P) :
    Except JsError (StateObj C × Option (List (EffectHandle P F))) :=
  match firstPassing state.context event (dispatchCandidates M state event) with
  | .error err => .error err
  | .ok (some cand) => applyTransition M fuel state event cand
  | .ok none => .ok (state, none)

/-- transition (service.ts lines 324-357): the initial-transition branch
(falsy state name, null event type, at least one state), then dispatch. -/
def transition {C P F : Type} (M : Machine C P F) (fuel : Nat) (state : StateObj C)
    (event : EventObj P) :
    Except JsError (StateObj C × Option (List (EffectHandle P F))) :=
  if nameFalsy state.name && event.type.isNone then
    match M.states with
    | (n, _) :: _ => applyTransition M fuel state event (mkImmediate n)
    | [] => dispatch M fuel state event
  else dispatch M fuel state event

/-- A raw JS value passed positionally to a builder function. -/
inductive JsVal where
  | str (s : String)
  | num (n : Int)
  | boolean (b : Bool)
  | nullv
  | undef
  deriving DecidableEq, Repr

/-- The `typeof argument === "string"` test. -/
def isStringVal : JsVal → Bool
  | .str _ => true
  | _ => false

/-- assertString (service.ts lines 132-139): `throw new Error(error)` when
the argument is not a string; an empty string is a string and passes. -/
def assertString (argument : JsVal) (error : String) : Except JsError String :=
  match argument with
  | .str s => .ok s
  | _ => .error (.thrown error)

/-- The shapes of an assign hook (types.ts Assign): `true`, a function
producing a partial context, or a constant partial context. -/
inductive AssignSpec where
  | always
  | fn (f : JsObj → JsObj → Except JsError JsObj)
  | val (v : JsObj)

/-- assignToReduce (service.ts lines 470-495): build a reducer that merges
the event payload (`assign: true`), the function result, or the constant
value into the context. `const \x7b type, ...data \x7d = event` is the payload
projection, so `data` is every field of the event except `type`. -/
def assignToReduce (assign : AssignSpec) : ReduceFn JsObj JsObj :=
  fun context event =>
    let data := event.payload
    match assign with
    | .always => .ok (.newContext (jsMerge context data))
    | .fn f =>
      match f context data with
      | .error err => .error err
      | .ok r => .ok (.newContext (jsMerge context r))
    | .val v => .ok (.newContext (jsMerge context v))

/-- An action hook, run only for its side effect; in the pure model only
the possibility of throwing is observable. -/
abbrev ActionFn (C P : Type) := C → EventObj P → Except JsError Unit

/-- actionToReduce (service.ts lines 497-504): run the action, then return
the ACTION sentinel so the context is left unchanged. -/
def actionToReduce {C P : Type} (action : ActionFn C P) : ReduceFn C P :=
  fun context event =>
    match action context event with
    | .error err => .error err
    | .ok _ => .ok .actionSentinel

/-- The recognized hook kinds (constants.ts HOOKS). -/
inductive HookKind where
  | assign | reduce | action | guard | invoke | effect
  deriving DecidableEq, Repr

/-- service.ts lines 106-111. -/
def transitionHooks : List HookKind := [.assign, .reduce, .action, .guard]

/-- service.ts lines 112-118. -/
def enterHooks : List HookKind := [.assign, .reduce, .action, .invoke, .effect]

/-- service.ts lines 119-123. -/
def exitHooks : List HookKind := [.assign, .reduce, .action]

/-- Hook options as already normalized by `toArray`: a single function or
value becomes a singleton list. -/
structure RawOpts (F : Type) where
  guard : List (GuardFn JsObj JsObj) := []
  reduce : List (ReduceFn JsObj JsObj) := []
  assign : List AssignSpec := []
  action : List (ActionFn JsObj JsObj) := []
  invoke : List F := []
  effect : List F := []

/-- The merged hook lists keyed by HOOK_KEYS (constants.ts lines 16-21). -/
structure Merged (F : Type) where
  guards : List (GuardFn JsObj JsObj) := []
  reducers : List (ReduceFn JsObj JsObj) := []
  invokes : List F := []
  effects : List F := []

/-- One step of the merge loop (`add(hook)`, service.ts lines 524-538):
assign and action are remapped to reduce through the mappedHooks table and
their lowered entries concatenated onto the merged key of the remapped
hook; the other kinds concatenate onto their own key. -/
def addHook {F : Type} (opts : RawOpts F) (m : Merged F) : HookKind → Merged F
  | .assign => { m with reducers := m.reducers ++ opts.assign.map assignToReduce }
  | .reduce => { m with reducers := m.reducers ++ opts.reduce }
  | .action => { m with reducers := m.reducers ++ opts.action.map actionToReduce }
  | .guard => { m with guards := m.guards ++ opts.guard }
  | .invoke => { m with invokes := m.invokes ++ opts.invoke }
  | .effect => { m with effects := m.effects ++ opts.effect }

/-- merge (service.ts lines 513-541): fold `add` over the allowed hooks in
their fixed registry order. -/
def merge {F : Type} (opts : RawOpts F) (allowedHooks : List HookKind) : Merged F :=
  allowedHooks.foldl (addHook opts) {}

/-- createEnter (service.ts lines 244-251). -/
def createEnter {F : Type} (opts : RawOpts F) : EnterNode JsObj JsObj F :=
  let m := merge opts enterHooks
  { reducers := m.reducers, effects := m.effects, invokes := m.invokes }

/-- createExit (service.ts lines 253-260): exitHooks produce only the
reducers key. -/
def createExit {F : Type} (opts : RawOpts F) : ExitNode JsObj JsObj :=
  { reducers := (merge opts exitHooks).reducers }

/-- createTransition (service.ts lines 262-284). -/
def createTransition {F : Type} (event target : JsVal) (opts : RawOpts F) :
    Except JsError (TransRec JsObj JsObj) :=
  match assertString event
      "First argument of the transition must be the name of the event" with
  | .error err => .error err
  | .ok ev =>
    match assertString target
        "Second argument of the transition must be the name of the target state" with
    | .error err => .error err
    | .ok tg =>
      let m := merge opts transitionHooks
      .ok { event := some ev, target := some tg, internal := false,
            guards := m.guards, reducers := m.reducers }

/-- createInternal (service.ts lines 286-300): no target field, and the
internal marker present. -/
def createInternal {F : Type} (event : JsVal) (opts : RawOpts F) :
    Except JsError (TransRec JsObj JsObj) :=
  match assertString event
      "First argument of the internal transition must be the name of the event" with
  | .error err => .error err
  | .ok ev =>
    let m := merge opts transitionHooks
    .ok { event := some ev, target := none, internal := true,
          guards := m.guards, reducers := m.reducers }

/-- createImmediate (service.ts lines 302-315): no event field. -/
def createImmediate {F : Type} (target : JsVal) (opts : RawOpts F) :
    Except JsError (TransRec JsObj JsObj) :=
  match assertString target
      "First argument of the immediate transition must be the name of the target state" with
  | .error err => .error err
  | .ok tg =>
    let m := merge opts transitionHooks
    .ok { event := none, target := some tg, internal := false,
          guards := m.guards, reducers := m.reducers }

/-- A value passed to `state(name, ...)`: both `transition()` and
`internal()` carry the tag "transition" in the source, so they share the
transitionPart constructor here. -/
inductive StatePart (F : Type) where
  | transitionPart (t : TransRec JsObj JsObj)
  | immediatePart (t : TransRec JsObj JsObj)
  | enterPart (e : EnterNode JsObj JsObj F)
  | exitPart (e : ExitNode JsObj JsObj)

/-- JS property-key coercion for `transitions[event]` where a missing
event field reads as the key "undefined". -/
def jsKeyEvent : Option String → String
  | some s => s
  | none => "undefined"

/-- `transitions[event].push(opt)` preserving object key insertion order. -/
def pushTransition {C P : Type} (ts : List (String × List (TransRec C P)))
    (k : String) (t : TransRec C P) : List (String × List (TransRec C P)) :=
  match ts with
  | [] => [(k, [t])]
  | (k', l) :: rest =>
    if k' = k then (k', l ++ [t]) :: rest else (k', l) :: pushTransition rest k t

/-- createState (service.ts lines 202-242), partitioning the parts by tag
in order. The closed `StatePart` type makes the throwing else-branch for
unrecognized values unrepresentable. -/
def createState {F : Type} (name : String) (opts : List (StatePart F)) :
    StateNode JsObj JsObj F :=
  opts.foldl
    (fun st opt =>
      match opt with
      | .transitionPart t =>
        { st with transitions := pushTransition st.transitions (jsKeyEvent t.event) t }
      | .immediatePart t => { st with immediates := st.immediates ++ [t] }
      | .enterPart e => { st with enter := st.enter ++ [e] }
      | .exitPart e => { st with exit := st.exit ++ [e] })
    { name := name, enter := [], exit := [], transitions := [], immediates := [] }

/-- The session fields driven by the pure transition logic (service.ts
lines 29-69); the subscriber callbacks and the execution of effect
functions are side effects, modelled separately by the runtime below. -/
structure Session (C P F : Type) where
  state : StateObj C
  prev : Option (StateObj C)
  pendingEffects : List (EffectHandle P F)
  running : Bool

/-- send (service.ts lines 38-56): a no-op when stopped; otherwise `prev`
is set, the transition is computed, and only when it returns normally is
`state` assigned (then non-null effects replace pendingEffects). A hook
exception is returned alongside the session exactly as it was at the
moment of the throw: `state` has not been reassigned. -/
def send {C P F : Type} (M : Machine C P F) (fuel : Nat) (s : Session C P F)
    (event : EventObj P) : Session C P F × Option JsError :=
  if s.running = false then (s, none)
  else
    let s1 : Session C P F := { s with prev := some s.state }
    match transition M fuel s.state event with
    | .error err => (s1, some err)
    | .ok (st, effs) =>
      let s2 : Session C P F := { s1 with state := st }
      match effs with
      | some el => ({ s2 with pendingEffects := el }, none)
      | none => (s2, none)

/-- What the run function of an effect returns: nothing (fire and forget),
a promise-like value (usage warning, not retained), or a cleanup function,
modelled by the list of events that cleanup will push through the guarded
send when invoked. -/
inductive RunReturn (P : Type) where
  | nothing
  | thenable
  | cleanup (sends : List (EventObj P))
  deriving DecidableEq, Repr

/-- The runtime-observable shape of one effect entry: the return value of
its run function. Sends the effect performs while running go through the
same guarded send before any disposal and are not restricted. -/
structure EffectSpec (P : Type) where
  ret : RunReturn P
  deriving DecidableEq, Repr

/-- A retained running effect: its disposed flag and the sends its cleanup
function will attempt. -/
structure RunningEffect (P : Type) where
  cleanupSends : List (EventObj P)
  disposed : Bool
  deriving DecidableEq, Repr

/-- Observable outcome of one call to the guarded send: the event reaches
the session send, or it is swallowed with only a diagnostic warning. -/
inductive SendOutcome (P : Type) where
  | delivered (ev : EventObj P)
  | warnedNoop
  deriving DecidableEq, Repr

/-- safeSend (service.ts lines 591-604): once the effect is marked
disposed, a warning no-op; otherwise a plain forward to send. -/
def guardedSend {P : Type} (disposed : Bool) (ev : EventObj P) : SendOutcome P :=
  if disposed then .warnedNoop else .delivered ev

/-- The retention logic of runEffects (service.ts lines 606-622): an
effect whose run returns a cleanup function is retained with its disposed
flag unset; a thenable return only warns and is not retained; no return is
fire-and-forget and not retained. -/
def runEffects {P : Type} : List (EffectSpec P) → List (RunningEffect P)
  | [] => []
  | e :: rest =>
    match e.ret with
    | .cleanup sends => { cleanupSends := sends, disposed := false } :: runEffects rest
    | .thenable => runEffects rest
    | .nothing => runEffects rest

/-- The dispose wrapper installed by runEffects (service.ts lines
617-620): set `disposed = true` first, then invoke the user cleanup; every
send the cleanup attempts goes through the guarded send and reads the
already-set flag. -/
def disposeEffect {P : Type} (r : RunningEffect P) :
    RunningEffect P × List (SendOutcome P) :=
  let marked : RunningEffect P := { r with disposed := true }
  (marked, marked.cleanupSends.map (guardedSend marked.disposed))

/-- JS string coercion of a context field, as used by `"b-" + ctx.x`. -/
def jsToString : Option Val → String
  | some (.num n) => toString n
  | some (.str s) => s
  | some (.boolean b) => cond b "true" "false"
  | none => "undefined"

/-- The event used by the concrete example machines below. -/
def goEv : EventObj JsObj := { type := some "go", payload := [] }

/- Concrete machine for the immediate chain S --go--> A --imm--> B --imm--> C,
where A, B and C each declare an enter assign and an enter effect. -/

def chainT : TransRec JsObj JsObj :=
  { event := some "go", target := some "A", internal := false, guards := [], reducers := [] }

def chainImmB : TransRec JsObj JsObj :=
  { event := none, target := some "B", internal := false, guards := [], reducers := [] }

def chainImmC : TransRec JsObj JsObj :=
  { event := none, target := some "C", internal := false, guards := [], reducers := [] }

def chainSNode : StateNode JsObj JsObj String := createState "S" [.transitionPart chainT]

def chainANode : StateNode JsObj JsObj String :=
  createState "A"
    [.enterPart (createEnter { assign := [.val [("a", .num 1)]], effect := ["effA"] }),
     .immediatePart chainImmB]

def chainBNode : StateNode JsObj JsObj String :=
  createState "B"
    [.enterPart (createEnter { assign := [.val [("b", .num 1)]], effect := ["effB"] }),
     .immediatePart chainImmC]

def chainCNode : StateNode JsObj JsObj String :=
  createState "C"
    [.enterPart (createEnter { assign := [.val [("c", .num 1)]], effect := ["effC"] })]

def chainM : Machine JsObj JsObj String :=
  { states := [("S", chainSNode), ("A", chainANode), ("B", chainBNode), ("C", chainCNode)] }

/- Concrete machine for an internal transition on a state that also has a
guard-free immediate into a second state carrying an enter effect. -/

def innerGo : TransRec JsObj JsObj :=
  { event := some "go", target := none, internal := true, guards := [], reducers := [] }

def innerImm : TransRec JsObj JsObj :=
  { event := none, target := some "t", internal := false, guards := [], reducers := [] }

def innerSNode : StateNode JsObj JsObj String :=
  createState "s" [.transitionPart innerGo, .immediatePart innerImm]

def innerTNode : StateNode JsObj JsObj String :=
  createState "t" [.enterPart (createEnter { effect := ["fx"] })]

def innerM : Machine JsObj JsObj String :=
  { states := [("s", innerSNode), ("t", innerTNode)] }

/- Concrete machine whose only transition has a throwing guard. -/

def throwGuard : GuardFn JsObj JsObj := fun _ _ => .error (.hookException "guard boom")

def throwTrans : TransRec JsObj JsObj :=
  { event := some "go", target := some "a", internal := false,
    guards := [throwGuard], reducers := [] }

def throwNode : StateNode JsObj JsObj Unit := createState "a" [.transitionPart throwTrans]

def throwM : Machine JsObj JsObj Unit := { states := [("a", throwNode)] }

def throwSession : Session JsObj JsObj Unit :=
  { state := { name := some "a", context := [], final := false },
    prev := none, pendingEffects := [], running := true }

/- Concrete option object declaring both an assign and a reduce hook. -/

def lowerAssign : AssignSpec := .val [("x", .num 1)]

def lowerReduce : ReduceFn JsObj JsObj := fun _ _ => .ok (.newContext [("x", .num 2)])

def lowerOpts : RawOpts Unit := { assign := [lowerAssign], reduce := [lowerReduce] }

/- The machine of the spec ordering example:
state("a", exit(\x7bassign:\x7bx:1\x7d\x7d)) and
state("b", enter(\x7breduce: ctx=>(\x7b...ctx, name:"b-"+ctx.x\x7d)\x7d)). -/

def abExitA : ExitNode JsObj JsObj :=
  createExit (F := Unit) { assign := [.val [("x", .num 1)]] }

def abGoT : TransRec JsObj JsObj :=
  { event := some "go", target := some "b", internal := false, guards := [], reducers := [] }

def abReduceB : ReduceFn JsObj JsObj :=
  fun c _ =>
    .ok (.newContext (jsMerge c [("name", .str ("b-" ++ jsToString (jsLookup c "x")))]))

def abEnterB : EnterNode JsObj JsObj Unit := createEnter { reduce := [abReduceB] }

def abANode : StateNode JsObj JsObj Unit :=
  createState "a" [.exitPart abExitA, .transitionPart abGoT]

def abBNode : StateNode JsObj JsObj Unit := createState "b" [.enterPart abEnterB]

def abM : Machine JsObj JsObj Unit := { states := [("a", abANode), ("b", abBNode)] }

def abCtx : JsObj := [("x", .num 1), ("name", .str "b-1")]

/- A machine with one state and no transitions, for the no-op witness. -/

def lonelyNode : StateNode JsObj JsObj Unit := createState "a" []

def lonelyM : Machine JsObj JsObj Unit := { states := [("a", lonelyNode)] }

/- A concrete effect whose run returns a cleanup that sends one event. -/

def pingEv : EventObj JsObj := { type := some "ping", payload := [] }

def cleanupSpec : EffectSpec JsObj := { ret := .cleanup [pingEv] }

/-
Shared lemmas about the engine, used by several claim proofs below.
-/

theorem exitPhase_internal {C P F : Type} (M : Machine C P F) (curr : StateObj C)
    (e : EventObj P) (t : TransRec C P) (ht : t.internal = true) :
    exitPhase M curr e t = .ok curr.context := by
  unfold exitPhase
  cases lookupState M curr.name <;> simp [ht]

theorem applyTransition_external_settle {C P F : Type} (M : Machine C P F) (fuel : Nat)
    (curr : StateObj C) (e : EventObj P) (t : TransRec C P) (node : StateNode C P F)
    (c1 c2 c3 : C)
    (ht : t.internal = false)
    (hexit : exitPhase M curr e t = .ok c1)
    (hred : applyReducers c1 e t.reducers = .ok c2)
    (hnode : lookupState M t.target = some node)
    (hent : runEnters c2 e node.enter = .ok c3)
    (himm : firstPassing c3 e node.immediates = .ok none) :
    applyTransition M (fuel + 1) curr e t =
      .ok ({ name := t.target, context := c3,
             final := if node.transitions.isEmpty && node.immediates.isEmpty
                      then true else curr.final },
           some (collectEffects node e)) := by
  simp [applyTransition, ht, hexit, hred, hnode, hent, himm]

theorem applyTransition_external_chain {C P F : Type} (M : Machine C P F) (fuel : Nat)
    (curr : StateObj C) (e : EventObj P) (t cand : TransRec C P)
    (node : StateNode C P F) (c1 c2 c3 : C)
    (ht : t.internal = false)
    (hexit : exitPhase M curr e t = .ok c1)
    (hred : applyReducers c1 e t.reducers = .ok c2)
    (hnode : lookupState M t.target = some node)
    (hent : runEnters c2 e node.enter = .ok c3)
    (himm : firstPassing c3 e node.immediates = .ok (some cand)) :
    applyTransition M (fuel + 1) curr e t =
      applyTransition M fuel { name := t.target, context := c3, final := curr.final }
        e cand := by
  simp [applyTransition, ht, hexit, hred, hnode, hent, himm]

theorem applyTransition_internal_settle {C P F : Type} (M : Machine C P F) (fuel : Nat)
    (curr : StateObj C) (e : EventObj P) (t : TransRec C P) (node : StateNode C P F)
    (c2 : C)
    (ht : t.internal = true)
    (hred : applyReducers curr.context e t.reducers = .ok c2)
    (hnode : lookupState M curr.name = some node)
    (himm : firstPassing c2 e node.immediates = .ok none) :
    applyTransition M (fuel + 1) curr e t =
      .ok ({ name := curr.name, context := c2,
             final := if node.transitions.isEmpty && node.immediates.isEmpty
                      then true else curr.final },
           none) := by
  simp [applyTransition, ht, exitPhase_internal M curr e t ht, hred, hnode, himm]

theorem applyTransition_internal_chain {C P F : Type} (M : Machine C P F) (fuel : Nat)
    (curr : StateObj C) (e : EventObj P) (t cand : TransRec C P)
    (node : StateNode C P F) (c2 : C)
    (ht : t.internal = true)
    (hred : applyReducers curr.context e t.reducers = .ok c2)
    (hnode : lookupState M curr.name = some node)
    (himm : firstPassing c2 e node.immediates = .ok (some cand)) :
    applyTransition M (fuel + 1) curr e t =
      applyTransition M fuel { name := curr.name, context := c2, final := curr.final }
        e cand := by
  simp [applyTransition, ht, exitPhase_internal M curr e t ht, hred, hnode, himm]

theorem transition_dispatch {C P F : Type} (M : Machine C P F) (fuel : Nat)
    (state : StateObj C) (e : EventObj P)
    (h : nameFalsy state.name = false ∨ e.type ≠ none ∨ M.states = []) :
    transition M fuel state e = dispatch M fuel state e := by
  unfold transition
  rcases h with h | h | h
  · simp [h]
  · have hn : e.type.isNone = false := by
      cases he : e.type <;> simp_all
    simp [hn]
  · rw [h]
    simp

theorem dispatch_none {C P F : Type} (M : Machine C P F) (fuel : Nat)
    (state : StateObj C) (e : EventObj P)
    (h : firstPassing state.context e (dispatchCandidates M state e) = .ok none) :
    dispatch M fuel state e = .ok (state, none) := by
  unfold dispatch
  rw [h]

theorem dispatch_some {C P F : Type} (M : Machine C P F) (fuel : Nat)
    (state : StateObj C) (e : EventObj P) (cand : TransRec C P)
    (h : firstPassing state.context e (dispatchCandidates M state e) = .ok (some cand)) :
    dispatch M fuel state e = applyTransition M fuel state e cand := by
  unfold dispatch
  rw [h]

theorem jsLookup_append (a b : JsObj) (k : String) :
    jsLookup (a ++ b) k = (jsLookup b k).or (jsLookup a k) := by
  unfold jsLookup
  rw [List.reverse_append, List.find?_append]
  cases List.find? (fun kv => kv.1 == k) b.reverse <;> simp

theorem runEffects_disposed_flag {P : Type} (specs : List (EffectSpec P)) :
    ∀ r ∈ runEffects specs, r.disposed = false := by
  induction specs with
  | nil => intro r hr; simp [runEffects] at hr
  | cons e rest ih =>
    intro r hr
    unfold runEffects at hr
    cases h : e.ret with
    | cleanup sends =>
      rw [h] at hr
      rcases List.mem_cons.mp hr with hr | hr
      · subst hr; rfl
      · exact ih r hr
    | thenable => rw [h] at hr; exact ih r hr
    | nothing => rw [h] at hr; exact ih r hr

/-
Theorems for the claims.
-/

/-- C6: unmatched event is a total no-op. Whenever the initial-transition
branch is not taken and the candidate scan finishes without any
guard-passing transition for the event from the current state — which
covers a state node with no transition list for the event, and a state
name absent from the machine, where the candidate list is empty — the
transition function does not throw and returns exactly the pair (S, null),
name and context unchanged. -/
theorem unmatched_event_noop {C P F : Type} (M : Machine C P F) (fuel : Nat)
    (S : StateObj C) (E : EventObj P)
    (hinit : nameFalsy S.name = false ∨ E.type ≠ none ∨ M.states = [])
    (hscan : firstPassing S.context E (dispatchCandidates M S E) = .ok none) :
    transition M fuel S E = .ok (S, none) := by
  rw [transition_dispatch M fuel S E hinit, dispatch_none M fuel S E hscan]

/-- Witness for unmatched_event_noop: a machine with a single state that
declares no transitions ignores a "go" event. -/
theorem unmatched_event_noop_witness :
    transition lonelyM 1 { name := some "a", context := [], final := false } goEv =
      .ok ({ name := some "a", context := [], final := false }, none) :=
  unmatched_event_noop lonelyM 1 _ goEv (Or.inl rfl) rfl

/-- C8: final-state detection. Every successful run of applyTransition
settles on a state whose node exists in the machine, and the final flag of
the returned state is computed at settle time: it is true when the settled
node has an empty transitions map and no immediates, and otherwise it is
inherited unchanged from the pre-transition state — a node with at least
one transition or immediate is never newly marked final. -/
theorem final_state_detection {C P F : Type} (M : Machine C P F) (fuel : Nat) :
    ∀ (curr : StateObj C) (e : EventObj P) (t : TransRec C P) (st : StateObj C)
      (effs : Option (List (EffectHandle P F))),
      applyTransition M fuel curr e t = .ok (st, effs) →
      ∃ node, lookupState M st.name = some node ∧
        st.final = (if node.transitions.isEmpty && node.immediates.isEmpty
                    then true else curr.final) := by
  induction fuel with
  | zero =>
    intro curr e t st effs h
    simp [applyTransition] at h
  | succ fuel ih =>
    intro curr e t st effs h
    simp only [applyTransition] at h
    split at h
    · simp at h
    · split at h
      · simp at h
      · split at h
        · simp at h
        · split at h
          · simp at h
          · split at h
            · simp at h
            · obtain ⟨node, h1, h2⟩ := ih _ e _ st effs h
              exact ⟨node, h1, h2⟩
            · rename_i ctx1 heq1 ctx2 heq2 nextState heq3 ctx3 heq4 heq5
              injection h with h1
              injection h1 with hst heff
              subst hst
              exact ⟨ctx2, heq2, rfl⟩

/-- Witness for final_state_detection: the initial immediate into the
only state of the one-state machine settles with final = true. -/
theorem final_state_detection_witness :
    ∃ node, lookupState lonelyM (some "a") = some node ∧
      ({ name := some "a", context := [], final := true } : StateObj JsObj).final =
        (if node.transitions.isEmpty && node.immediates.isEmpty then true
         else ({ name := none, context := [], final := false } : StateObj JsObj).final) :=
  final_state_detection lonelyM 1 { name := none, context := [], final := false }
    goEv (mkImmediate "a") { name := some "a", context := [], final := true }
    (some []) rfl

/-- C10: semantics of lowered assign hooks. The reducer produced by
assignToReduce returns the context immutably merged with: the whole event
payload — every field of the event except type, by the modelling of event
objects — for `assign: true`; the constant value for a constant; and the
function result applied to the context and the payload for a function
(propagating a throw). Merging is right-biased: a field lookup on the
merged object prefers the merged-in partial and falls back to the original
context, which is itself never modified. -/
theorem assign_to_reduce_semantics (c : JsObj) (e : EventObj JsObj) :
    assignToReduce .always c e = .ok (.newContext (jsMerge c e.payload)) ∧
    (∀ v, assignToReduce (.val v) c e = .ok (.newContext (jsMerge c v))) ∧
    (∀ f, assignToReduce (.fn f) c e =
      (f c e.payload).map (fun r => .newContext (jsMerge c r))) ∧
    (∀ d k, jsLookup (jsMerge c d) k = (jsLookup d k).or (jsLookup c k)) := by
  refine ⟨rfl, fun v => rfl, fun f => ?_, fun d k => jsLookup_append c d k⟩
  unfold assignToReduce
  cases h : f c e.payload <;> simp [h, Except.map]

/-- C4 counterexample: an option object declaring both an assign entry and
a reduce entry is lowered with the assign entry FIRST — the merged
reducers list is not the reduce entry followed by the lowered assign
entry, refuting the claimed appended-after order. -/
theorem hook_lowering_order_counterexample :
    (merge lowerOpts transitionHooks).reducers ≠
      [lowerReduce, assignToReduce lowerAssign] := by
  intro h
  have h0 : (merge lowerOpts transitionHooks).reducers =
      [assignToReduce lowerAssign, lowerReduce] := rfl
  rw [h0] at h
  injection h with h1 h2
  have h3 := congrFun (congrFun h1 []) goEv
  simp [assignToReduce, lowerAssign, lowerReduce, jsMerge] at h3

/-- C4 amended: compilation normalizes each option object into one
reducers list by lowering in the registry's fixed kind order assign,
reduce, action: the lowered assign entries are placed BEFORE the
pre-existing reduce entries of the same option object and the lowered
action entries after them, identically for the transition, enter and exit
hook sets, while guard, invoke and effect keep their own keys. -/
theorem hook_lowering_registry_order {F : Type} (opts : RawOpts F) :
    (merge opts transitionHooks).reducers =
        opts.assign.map assignToReduce ++ opts.reduce ++
          opts.action.map actionToReduce ∧
    (merge opts transitionHooks).guards = opts.guard ∧
    (merge opts enterHooks).reducers =
        opts.assign.map assignToReduce ++ opts.reduce ++
          opts.action.map actionToReduce ∧
    (merge opts enterHooks).invokes = opts.invoke ∧
    (merge opts enterHooks).effects = opts.effect ∧
    (merge opts exitHooks).reducers =
        opts.assign.map assignToReduce ++ opts.reduce ++
          opts.action.map actionToReduce := by
  refine ⟨?_, ?_, ?_, ?_, ?_, ?_⟩ <;>
    simp [merge, transitionHooks, enterHooks, exitHooks, addHook, List.append_assoc]

/-- C9 counterexample: the empty string is not a non-empty string, yet
createTransition accepts it and succeeds — assertString only tests
`typeof === "string"`, so no InvalidArgument error is thrown. -/
theorem builder_event_name_counterexample :
    createTransition (.str "") (.str "b") ({} : RawOpts Unit) =
      .ok { event := some "", target := some "b", internal := false,
            guards := [], reducers := [] } ∧
    ∀ err, createTransition (.str "") (.str "b") ({} : RawOpts Unit) ≠ .error err := by
  refine ⟨rfl, fun err h => ?_⟩
  exact Except.noConfusion h

/-- C9 amended: transition(event, target, opts) and internal(event, opts)
throw the documented Error naming the first positional argument exactly
when the event argument is not a string; every string — the empty string
included — is accepted, so the non-emptiness half of the claim is not
checked by the code. -/
theorem builder_event_name_validation_amended {F : Type} (event target : JsVal)
    (opts : RawOpts F) :
    (isStringVal event = false →
      createTransition event target opts =
          .error (.thrown
            "First argument of the transition must be the name of the event") ∧
        createInternal event opts =
          .error (.thrown
            "First argument of the internal transition must be the name of the event")) ∧
    (∀ s, event = .str s → ∃ t, createInternal event opts = .ok t) := by
  constructor
  · intro h
    cases event with
    | str s => simp [isStringVal] at h
    | num n => exact ⟨rfl, rfl⟩
    | boolean b => exact ⟨rfl, rfl⟩
    | nullv => exact ⟨rfl, rfl⟩
    | undef => exact ⟨rfl, rfl⟩
  · rintro s rfl
    exact ⟨_, rfl⟩

/-- Witness for builder_event_name_validation_amended: a numeric event
argument makes both builders throw the documented errors. -/
theorem builder_event_name_validation_amended_witness :
    createTransition (.num 0) (.str "b") ({} : RawOpts Unit) =
        .error (.thrown
          "First argument of the transition must be the name of the event") ∧
      createInternal (.num 0) ({} : RawOpts Unit) =
        .error (.thrown
          "First argument of the internal transition must be the name of the event") :=
  (builder_event_name_validation_amended (.num 0) (.str "b") ({} : RawOpts Unit)).1 rfl

/-- C7: post-disposal send is swallowed. Every effect retained by
runEffects starts with its disposed flag unset; its dispose wrapper marks
the effect disposed before the user cleanup runs, so each send the cleanup
attempts — and any later send through the guard — resolves to the warning
no-op outcome and never reaches the session send; the model is total, so
nothing throws. -/
theorem post_disposal_send_swallowed {P : Type} (specs : List (EffectSpec P))
    (r : RunningEffect P) (hmem : r ∈ runEffects specs) :
    r.disposed = false ∧
    (disposeEffect r).1.disposed = true ∧
    (∀ o ∈ (disposeEffect r).2, o = SendOutcome.warnedNoop) ∧
    (∀ ev : EventObj P, guardedSend (disposeEffect r).1.disposed ev = .warnedNoop) := by
  refine ⟨runEffects_disposed_flag specs r hmem, rfl, ?_, fun ev => rfl⟩
  intro o ho
  simp [disposeEffect, guardedSend] at ho
  exact ho.2.symm

/-- Witness for post_disposal_send_swallowed: a single retained effect
whose cleanup sends one event; after disposal the guarded send swallows
the ping. -/
theorem post_disposal_send_swallowed_witness :
    ({ cleanupSends := [pingEv], disposed := false } : RunningEffect JsObj).disposed
        = false ∧
      guardedSend
        (disposeEffect
          ({ cleanupSends := [pingEv], disposed := false } : RunningEffect JsObj)).1.disposed
        pingEv = .warnedNoop :=
  ⟨(post_disposal_send_swallowed [cleanupSpec] _ (by simp [runEffects, cleanupSpec])).1,
   (post_disposal_send_swallowed [cleanupSpec] _
      (by simp [runEffects, cleanupSpec])).2.2.2 pingEv⟩

/-- C3: atomicity of send under hook exceptions. When a user hook invoked
during the transition throws, send returns the exception to its caller —
the engine catches nothing — and the session's state field still holds its
pre-send value: the assignment to state happens only after the transition
returns normally, so no partial transition is applied. -/
theorem send_hook_exception_atomicity {C P F : Type} (M : Machine C P F) (fuel : Nat)
    (s : Session C P F) (e : EventObj P) (err : JsError)
    (hrun : s.running = true)
    (hthrow : transition M fuel s.state e = .error err) :
    send M fuel s e = ({ s with prev := some s.state }, some err) ∧
    (send M fuel s e).1.state = s.state := by
  have h1 : send M fuel s e = ({ s with prev := some s.state }, some err) := by
    unfold send
    rw [hrun]
    simp [hthrow]
  exact ⟨h1, by rw [h1]⟩

/-- Witness for send_hook_exception_atomicity: a throwing guard makes send
surface the exception with the session state unchanged. -/
theorem send_hook_exception_atomicity_witness :
    send throwM 1 throwSession goEv =
        ({ throwSession with prev := some throwSession.state },
         some (.hookException "guard boom")) ∧
      (send throwM 1 throwSession goEv).1.state = throwSession.state :=
  send_hook_exception_atomicity throwM 1 throwSession goEv
    (.hookException "guard boom") rfl rfl

/-- C5: reducer application order on an external transition. The engine
first runs the exited node's Exit reducers left-to-right on the context
(exitPhase; applyReducers skips the context update when a reducer returns
the ACTION sentinel), then the working name becomes the target, then the
transition's own reducers run on the exit-reduced context, then the target
node's Enter reducers run — the chained contexts c1, c2, c3 witness the
order — and the settled state carries the target name and the
enter-reduced context. -/
theorem external_transition_reducer_order {C P F : Type} (M : Machine C P F)
    (fuel : Nat) (S : StateObj C) (e : EventObj P) (t : TransRec C P)
    (node : StateNode C P F) (c1 c2 c3 : C)
    (ht : t.internal = false)
    (hexit : exitPhase M S e t = .ok c1)
    (hred : applyReducers c1 e t.reducers = .ok c2)
    (hnode : lookupState M t.target = some node)
    (hent : runEnters c2 e node.enter = .ok c3)
    (himm : firstPassing c3 e node.immediates = .ok none) :
    applyTransition M (fuel + 1) S e t =
      .ok ({ name := t.target, context := c3,
             final := if node.transitions.isEmpty && node.immediates.isEmpty
                      then true else S.final },
           some (collectEffects node e)) :=
  applyTransition_external_settle M fuel S e t node c1 c2 c3 ht hexit hred hnode
    hent himm

/-- Witness for external_transition_reducer_order at the spec example
machine: firing a→b with exit assign x:=1 on a and an enter reducer on b
that reads x gives context.x = 1 and context.name = "b-1". -/
theorem external_transition_reducer_order_witness :
    applyTransition abM 1 { name := some "a", context := [], final := false }
        goEv abGoT =
        .ok ({ name := some "b", context := abCtx, final := true }, some []) ∧
      jsLookup abCtx "x" = some (.num 1) ∧
      jsLookup abCtx "name" = some (.str "b-1") :=
  ⟨external_transition_reducer_order abM 0 _ goEv abGoT abBNode [("x", .num 1)]
      [("x", .num 1)] abCtx rfl rfl rfl rfl rfl rfl, rfl, rfl⟩

/-- C2 counterexample: dispatch selects the internal "go" transition of
state s, but s has a guard-free immediate into t, so the claim fails at
this input: the returned name is "t", not "s", and the effects are the
enter effects of t rather than null. -/
theorem internal_transition_claim_counterexample :
    transition innerM 2 { name := some "s", context := [], final := false } goEv =
        .ok ({ name := some "t", context := [], final := true },
          some [{ run := .plain "fx", event := goEv }]) ∧
      some "t" ≠ some "s" ∧
      (some [{ run := .plain "fx", event := goEv }] :
          Option (List (EffectHandle JsObj String))) ≠ none :=
  ⟨rfl, by simp, by simp⟩

/-- C2 amended: when dispatch selects an Internal transition t from state
S, the exit and enter reducers are skipped while t's own reducers run on
the context; afterwards the node's immediates are still re-evaluated in
declaration order against the updated context. If none passes, the result
keeps S's name and returns null effects, so the caller leaves running
effects untouched; if one passes, the recursion on that immediate replaces
the result entirely — an external step that may change the name and
produce effects, which is what the unamended claim missed. -/
theorem internal_transition_behaviour_amended {C P F : Type} (M : Machine C P F)
    (fuel : Nat) (S : StateObj C) (e : EventObj P) (t : TransRec C P)
    (node : StateNode C P F) (c2 : C)
    (hinit : nameFalsy S.name = false ∨ e.type ≠ none)
    (hnode : lookupState M S.name = some node)
    (hscan : firstPassing S.context e
        ((node.transitions.lookup (jsKey e.type)).getD []) = .ok (some t))
    (ht : t.internal = true)
    (hred : applyReducers S.context e t.reducers = .ok c2) :
    (firstPassing c2 e node.immediates = .ok none →
      transition M (fuel + 1) S e =
        .ok ({ name := S.name, context := c2,
               final := if node.transitions.isEmpty && node.immediates.isEmpty
                        then true else S.final },
             none)) ∧
    (∀ imm, firstPassing c2 e node.immediates = .ok (some imm) →
      transition M (fuel + 1) S e =
        applyTransition M fuel { name := S.name, context := c2, final := S.final }
          e imm) := by
  have hdisp : transition M (fuel + 1) S e = dispatch M (fuel + 1) S e :=
    transition_dispatch M (fuel + 1) S e
      (hinit.elim Or.inl (fun h => Or.inr (Or.inl h)))
  have hcand : dispatchCandidates M S e =
      (node.transitions.lookup (jsKey e.type)).getD [] := by
    simp [dispatchCandidates, hnode]
  have happ : dispatch M (fuel + 1) S e = applyTransition M (fuel + 1) S e t := by
    apply dispatch_some
    rw [hcand]
    exact hscan
  constructor
  · intro hnone
    rw [hdisp, happ,
      applyTransition_internal_settle M fuel S e t node c2 ht hred hnode hnone]
  · intro imm hsome
    rw [hdisp, happ,
      applyTransition_internal_chain M fuel S e t imm node c2 ht hred hnode hsome]

/-- Witness for internal_transition_behaviour_amended at the concrete
machine: after the internal "go" runs, the immediate of s fires and
replaces the result with the external immediate step into t. -/
theorem internal_transition_behaviour_amended_witness :
    transition innerM 2 { name := some "s", context := [], final := false } goEv =
      applyTransition innerM 1
        { name := some "s", context := [], final := false } goEv innerImm :=
  (internal_transition_behaviour_amended innerM 1
      { name := some "s", context := [], final := false } goEv innerGo innerSNode
      [] (Or.inl rfl) rfl rfl rfl rfl).2 innerImm rfl

/-- C1: immediate chain effect suppression. For an external transition t
into A whose first guard-passing immediate leads to B, whose first
guard-passing immediate leads to C, with no immediate of C passing, the
recursive call on each guard-passing immediate entirely replaces the
in-progress result: the settled state is named by the final immediate's
target, its context has passed through the exited node's exit reducers,
t's reducers, A's enter (and exit) reducers, both immediates' reducers,
B's enter (and exit) reducers and C's enter reducers, and the effects list
is built from C's enter invokes and effects only — the enter hooks of A
and B contribute nothing to it. -/
theorem immediate_chain_effect_suppression {C P F : Type} (M : Machine C P F)
    (fuel : Nat) (S : StateObj C) (e : EventObj P)
    (t iB iC : TransRec C P) (Anode Bnode Cnode : StateNode C P F)
    (d0 d1 d2 d3 d4 d5 d6 d7 d8 : C)
    (ht : t.internal = false)
    (hexS : exitPhase M S e t = .ok d0)
    (hredT : applyReducers d0 e t.reducers = .ok d1)
    (hA : lookupState M t.target = some Anode)
    (hentA : runEnters d1 e Anode.enter = .ok d2)
    (himmA : firstPassing d2 e Anode.immediates = .ok (some iB))
    (hiB : iB.internal = false)
    (hexA : runExits d2 e Anode.exit = .ok d3)
    (hredB : applyReducers d3 e iB.reducers = .ok d4)
    (hB : lookupState M iB.target = some Bnode)
    (hentB : runEnters d4 e Bnode.enter = .ok d5)
    (himmB : firstPassing d5 e Bnode.immediates = .ok (some iC))
    (hiC : iC.internal = false)
    (hexB : runExits d5 e Bnode.exit = .ok d6)
    (hredC : applyReducers d6 e iC.reducers = .ok d7)
    (hC : lookupState M iC.target = some Cnode)
    (hentC : runEnters d7 e Cnode.enter = .ok d8)
    (himmC : firstPassing d8 e Cnode.immediates = .ok none) :
    applyTransition M (fuel + 3) S e t =
      .ok ({ name := iC.target, context := d8,
             final := if Cnode.transitions.isEmpty && Cnode.immediates.isEmpty
                      then true else S.final },
           some (collectEffects Cnode e)) := by
  have s1 : applyTransition M (fuel + 3) S e t =
      applyTransition M (fuel + 2)
        { name := t.target, context := d2, final := S.final } e iB :=
    applyTransition_external_chain M (fuel + 2) S e t iB Anode d0 d1 d2 ht hexS
      hredT hA hentA himmA
  have hexA' : exitPhase M { name := t.target, context := d2, final := S.final }
      e iB = .ok d3 := by
    unfold exitPhase
    simp [hA, hiB, hexA]
  have s2 : applyTransition M (fuel + 2)
      { name := t.target, context := d2, final := S.final } e iB =
      applyTransition M (fuel + 1)
        { name := iB.target, context := d5, final := S.final } e iC :=
    applyTransition_external_chain M (fuel + 1) _ e iB iC Bnode d3 d4 d5 hiB
      hexA' hredB hB hentB himmB
  have hexB' : exitPhase M { name := iB.target, context := d5, final := S.final }
      e iC = .ok d6 := by
    unfold exitPhase
    simp [hB, hiC, hexB]
  have s3 : applyTransition M (fuel + 1)
      { name := iB.target, context := d5, final := S.final } e iC =
      .ok ({ name := iC.target, context := d8,
             final := if Cnode.transitions.isEmpty && Cnode.immediates.isEmpty
                      then true else S.final },
           some (collectEffects Cnode e)) :=
    applyTransition_external_settle M fuel _ e iC Cnode d6 d7 d8 hiC hexB' hredC
      hC hentC himmC
  rw [s1, s2, s3]

/-- Witness for immediate_chain_effect_suppression: the concrete chain
machine settles in C with the enter assigns of A, B and C all merged into
the context, and only C's effect in the effect list. -/
theorem immediate_chain_effect_suppression_witness :
    applyTransition chainM 3 { name := some "S", context := [], final := false }
        goEv chainT =
      .ok ({ name := some "C",
             context := [("a", .num 1), ("b", .num 1), ("c", .num 1)],
             final := true },
           some [{ run := .plain "effC", event := goEv }]) :=
  immediate_chain_effect_suppression chainM 0 _ goEv chainT chainImmB chainImmC
    chainANode chainBNode chainCNode [] [] [("a", .num 1)] [("a", .num 1)]
    [("a", .num 1)] [("a", .num 1), ("b", .num 1)] [("a", .num 1), ("b", .num 1)]
    [("a", .num 1), ("b", .num 1)] [("a", .num 1), ("b", .num 1), ("c", .num 1)]
    rfl rfl rfl rfl rfl rfl rfl rfl rfl rfl rfl rfl rfl rfl rfl rfl rfl rfl

end ReactMachine
